import Mathlib

/-!
Verification of the unused-import analyzer (`src/analyzer.ts`).

The analyzer is a pure function from a parsed source file to a list of text
edits.  We embed the parts of the TypeScript AST that `analyzeFile` reads:

* the first pass (analyzer.ts lines 27-37) records the spelling of every
  `Identifier` node outside import-declaration subtrees; a non-import
  top-level statement is therefore abstracted to the list of identifier
  spellings occurring in its subtree, in traversal order;
* the second pass (lines 40-64) reads, from each import declaration, the
  optional default-import name, the named bindings (either a namespace
  binding `* as N` or a list of import specifiers), the module-specifier
  source text, the declaration's source text and its line/column range;
* edit synthesis (lines 78-121) is reproduced branch by branch.

Node-identity tests in the source (`unused === element`,
`declaration.importClause?.name === node`, line 84's
`(node.parent as ts.NamespaceImport).name === node`) are resolved using the
fact that every AST node is a distinct object: a named import specifier is
unused exactly when its own local name is missing from the identifier set,
the default name node matches only the default-name test, and line 84's
check is satisfied by the default-import name node (its parent is the
`ImportClause`, whose `.name` is that node) as well as by the namespace
name node.
-/

/-- JS whitespace as far as these sources use it (what
`String.prototype.trim` strips here). -/
def wsChar (c : Char) : Bool :=
  c == ' ' || c == '\t' || c == '\n' || c == '\r'

/-- Model of `String.prototype.trim`: strip leading and trailing whitespace. -/
def strTrim (s : String) : String :=
  ⟨((s.data.dropWhile wsChar).reverse.dropWhile wsChar).reverse⟩

/-- Model of `Array.prototype.join(sep)`. -/
def strIntercalate (sep : String) : List String → String
  | [] => ""
  | [x] => x
  | x :: rest => x ++ sep ++ strIntercalate sep rest

/-- The first `n` characters of `s` (columns here count characters; the
embedded sources are ASCII, so this matches UTF-16 column counting). -/
def strTake (s : String) (n : Nat) : String := ⟨s.data.take n⟩

/-- All but the first `n` characters of `s`. -/
def strDrop (s : String) (n : Nat) : String := ⟨s.data.drop n⟩

/-- A zero-based line/character position, as `vscode.Position`. -/
structure Pos where
  line : Nat
  character : Nat
deriving DecidableEq, Repr

/-- A half-open text range `[start, stop)`, as `vscode.Range`. -/
structure VRange where
  start : Pos
  stop : Pos
deriving DecidableEq, Repr

/-- Position order (lexicographic on line, then character). -/
def posLe (p q : Pos) : Prop :=
  p.line < q.line ∨ (p.line = q.line ∧ p.character ≤ q.character)

instance (p q : Pos) : Decidable (posLe p q) := by
  unfold posLe; exact inferInstance

/-- The type `vscode.TextEdit`: either `TextEdit.delete range` (replacement by the
empty string) or `TextEdit.replace range newText`. -/
inductive TextEdit where
  | delete (range : VRange)
  | replace (range : VRange) (newText : String)
deriving DecidableEq, Repr

/-- The range an edit applies to. -/
def editRange : TextEdit → VRange
  | TextEdit.delete r => r
  | TextEdit.replace r _ => r

/-- The replacement text of an edit (a deletion replaces with `""`). -/
def editNewText : TextEdit → String
  | TextEdit.delete _ => ""
  | TextEdit.replace _ t => t

/-- One element of a `NamedImports` list (`ts.ImportSpecifier`):
`name` is the local name (`element.name.text`; for `a as b` this is `b`),
`text` is `element.getText(sourceFile)` (e.g. `a as b` or `type T`). -/
structure ImportSpecifier where
  name : String
  text : String
deriving DecidableEq, Repr

/-- The field `importClause.namedBindings`: a namespace import `* as N` (carrying
`N = namedBindings.name.text`) or a `NamedImports` specifier list. -/
inductive NamedBindings where
  | namespaceImport (name : String)
  | namedImports (elements : List ImportSpecifier)
deriving DecidableEq, Repr

/-- The type `ts.ImportClause`: optional default-import name (`importClause.name.text`),
the statement-level type-only flag (`isTypeOnly`, never read by the
analyzer), and the optional named bindings. -/
structure ImportClause where
  name : Option String
  isTypeOnly : Bool
  namedBindings : Option NamedBindings
deriving DecidableEq, Repr

/-- The type `ts.ImportDeclaration`, restricted to the fields `analyzeFile` reads:
the optional clause (absent for a side-effect-only import such as the
statement `import "./x";`), `moduleSpecifier.getText(sourceFile)` (quotes
included), `declaration.getText(sourceFile)`, and the line/column range
`getRange` computes from the node's start and end positions. -/
structure ImportDeclaration where
  importClause : Option ImportClause
  moduleSpecifierText : String
  text : String
  range : VRange
deriving DecidableEq, Repr

/-- A top-level statement: an import declaration, or any other statement
abstracted to the identifier-node spellings in its subtree (what the first
pass would record from it).  Re-export declarations (`export ... from`) are
`other` statements: they are not `ts.ImportDeclaration` nodes, and the
first pass does visit their subtrees. -/
inductive Statement where
  | importDecl (d : ImportDeclaration)
  | other (identifiers : List String)
deriving DecidableEq, Repr

/-- A parsed source file: its top-level statements in source order. -/
abbrev SourceFile := List Statement

/-- First pass (lines 27-37): every identifier spelling outside the
subtrees of import declarations.  Membership is the only operation used. -/
def allIdentifiers (sf : SourceFile) : List String :=
  (sf.map fun s =>
    match s with
    | Statement.importDecl _ => []
    | Statement.other ids => ids).flatten

/-- The field `importClause.name`, when the declaration has a clause. -/
def defaultName (d : ImportDeclaration) : Option String :=
  match d.importClause with
  | some c => c.name
  | none => none

/-- The namespace name `N` of `* as N`, when the named bindings are a
namespace import. -/
def namespaceName (d : ImportDeclaration) : Option String :=
  match d.importClause with
  | some c =>
    match c.namedBindings with
    | some (NamedBindings.namespaceImport n) => some n
    | _ => none
  | none => none

/-- The `NamedImports` element list, when the named bindings are one. -/
def namedImportElements (d : ImportDeclaration) : Option (List ImportSpecifier) :=
  match d.importClause with
  | some c =>
    match c.namedBindings with
    | some (NamedBindings.namedImports els) => some els
    | _ => none
  | none => none

/-- Second pass (lines 40-64), restricted to one declaration: the local
names pushed onto `importedSymbols`, in push order (default first, then the
named elements, then the namespace name; the latter two never coexist). -/
def importedSymbolsOf (d : ImportDeclaration) : List String :=
  (match defaultName d with
   | some n => [n]
   | none => []) ++
  (match namedImportElements d with
   | some els => els.map (fun e => e.name)
   | none => []) ++
  (match namespaceName d with
   | some n => [n]
   | none => [])

/-- Line 66 restricted to one declaration: the local names of this
declaration's symbols missing from the identifier set.  The grouping at
lines 69-75 keys the `Map` on the declaration node itself and preserves
this order inside each group. -/
def unusedSymbolsOf (used : List String) (d : ImportDeclaration) : List String :=
  (importedSymbolsOf d).filter (fun n => !used.contains n)

/-- Line 79: is the default-import name node among the unused nodes? -/
def isDefaultImportUnused (used : List String) (d : ImportDeclaration) : Bool :=
  match defaultName d with
  | some n => !used.contains n
  | none => false

/-- Lines 80-81: `(namedBindings as ts.NamedImports)?.elements?.filter(...)`.
The cast yields `undefined` for a namespace import or absent bindings
(modelled as `none`); otherwise each element survives exactly when it is
not its declaration's unused node for that element, i.e. when its own
local name is in the identifier set. -/
def usedSpecifiers (used : List String) (d : ImportDeclaration) :
    Option (List ImportSpecifier) :=
  match namedImportElements d with
  | some els => some (els.filter (fun e => used.contains e.name))
  | none => none

/-- Line 83: the named bindings exist and are a namespace import. -/
def isNamespaceImport (d : ImportDeclaration) : Bool :=
  (namespaceName d).isSome

/-- Line 84's inner `unusedNodes.some(node => ts.isIdentifier(node) &&
(node.parent as ts.NamespaceImport).name === node)`.  The identifier nodes
a declaration can contribute to `unusedNodes` are its default name (whose
parent, the `ImportClause`, has it as `.name`, so the check passes) and its
namespace name (same); import-specifier nodes are not identifiers.  The
check is therefore: the default binding is unused, or the namespace binding
is unused. -/
def unusedNamespaceCheck (used : List String) (d : ImportDeclaration) : Bool :=
  isDefaultImportUnused used d ||
    (match namespaceName d with
     | some n => !used.contains n
     | none => false)

/-- Line 84: `isNamespaceImport && !unusedNodes.some(...)`. -/
def isNamespaceImportUsed (used : List String) (d : ImportDeclaration) : Bool :=
  isNamespaceImport d && !unusedNamespaceCheck used d

/-- Lines 92-93: the default name's source text when the default binding
exists and is not unused, else `undefined`. -/
def defaultImportName (used : List String) (d : ImportDeclaration) : Option String :=
  if isDefaultImportUnused used d then none else defaultName d

/-- The deletion range of lines 88 and 100: from the statement's first line
at column 0 to the start of the line after its last line. -/
def wholeLineRange (d : ImportDeclaration) : VRange :=
  ⟨⟨d.range.start.line, 0⟩, ⟨d.range.stop.line + 1, 0⟩⟩

/-- Lines 103-114: the rebuilt statement text.  Note the template starts
with the literal `"import "` and never re-emits a statement-level `type`
keyword. -/
def newImport (used : List String) (d : ImportDeclaration) : String :=
  let specs := (usedSpecifiers used d).getD []
  let s := "import "
  let s := match defaultImportName used d with
    | some dn => s ++ dn ++ (if specs.isEmpty then "" else ", ")
    | none => s
  let s := if specs.isEmpty then s
    else s ++ "\x7b " ++ strIntercalate ", " (specs.map (fun e => e.text)) ++ " \x7d"
  s ++ " from " ++ d.moduleSpecifierText ++ ";"

/-- Lines 78-121, for one declaration of the unused-imports map: the edit
pushed for it, if any. -/
def declEdit (used : List String) (d : ImportDeclaration) : Option TextEdit :=
  if isNamespaceImport d && !isNamespaceImportUsed used d then
    some (TextEdit.delete (wholeLineRange d))
  else if (defaultImportName used d).isNone &&
      ((usedSpecifiers used d).getD []).isEmpty then
    some (TextEdit.delete (wholeLineRange d))
  else
    if strTrim (newImport used d) == strTrim d.text then none
    else some (TextEdit.replace d.range (newImport used d))

/-- The function `analyzeFile` (lines 10-124): the declarations holding at least one
unused symbol, in file order (the `Map` iterates in insertion order, which
is the order declarations first appear in `unusedSymbols`), each
contributing its edit when one is pushed. -/
def analyzeFile (sf : SourceFile) : List TextEdit :=
  let used := allIdentifiers sf
  sf.filterMap fun s =>
    match s with
    | Statement.importDecl d =>
        if (unusedSymbolsOf used d).isEmpty then none else declEdit used d
    | Statement.other _ => none

/-- Split a character list at newline characters. -/
def splitCharsOnNewline : List Char → List (List Char)
  | [] => [[]]
  | c :: cs =>
    let r := splitCharsOnNewline cs
    if c == '\n' then [] :: r
    else
      match r with
      | [] => [[c]]
      | l :: ls => (c :: l) :: ls

/-- Split a replacement text into lines. -/
def splitLines (s : String) : List String :=
  (splitCharsOnNewline s.data).map (fun l => ⟨l⟩)

/-- Apply one edit to a document given as its list of lines (line breaks
not stored).  Out-of-range lines read as empty, matching the editor's
clamping of ranges to the document. -/
def applyOneEdit (lines : List String) (r : VRange) (newText : String) :
    List String :=
  let before := strTake (lines.getD r.start.line "") r.start.character
  let after := strDrop (lines.getD r.stop.line "") r.stop.character
  lines.take r.start.line ++ splitLines (before ++ newText ++ after) ++
    lines.drop (r.stop.line + 1)

/-- Apply a batch of edits given in file order, later edits first so that
earlier positions stay valid (how an editor applies a sorted batch). -/
def applyEdits (lines : List String) (es : List TextEdit) : List String :=
  es.reverse.foldl (fun ls e => applyOneEdit ls (editRange e) (editNewText e)) lines

/-- Does range `r` contain range `r'` entirely? -/
def rangeContains (r r' : VRange) : Prop :=
  posLe r.start r'.start ∧ posLe r'.stop r.stop

instance (r r' : VRange) : Decidable (rangeContains r r') := by
  unfold rangeContains; exact inferInstance

/-- Two half-open ranges overlap when each starts before the other stops. -/
def rangesOverlap (r r' : VRange) : Prop :=
  (posLe r.start r'.stop ∧ ¬ posLe r'.stop r.start) ∧
  (posLe r'.start r.stop ∧ ¬ posLe r.stop r'.start)

instance (r r' : VRange) : Decidable (rangesOverlap r r') := by
  unfold rangesOverlap; exact inferInstance

/-- Edit `e` ends at or before edit `e'` starts: in file order and
non-overlapping. -/
def editsSeparated (e e' : TextEdit) : Prop :=
  posLe (editRange e).stop (editRange e').start

instance (e e' : TextEdit) : Decidable (editsSeparated e e') := by
  unfold editsSeparated; exact inferInstance

/-! ## Concrete source files

Each concrete `SourceFile` below is the hand-parse of a short program,
following the TypeScript grammar: an `other` statement lists the
identifier-node spellings of its subtree in traversal order (note that a
variable name, a plain object-literal property key and an export-specifier
name are all `Identifier` nodes). -/

/-- The clause of the statement `import Def, * as NS from "./m";`. -/
def mixedClauseM : ImportClause :=
  { name := some "Def", isTypeOnly := false,
    namedBindings := some (NamedBindings.namespaceImport "NS") }

/-- The statement `import Def, * as NS from "./m";` on line 0. -/
def mixedDeclM : ImportDeclaration :=
  { importClause := some mixedClauseM,
    moduleSpecifierText := "\"./m\"",
    text := "import Def, * as NS from \"./m\";",
    range := ⟨⟨0, 0⟩, ⟨0, 31⟩⟩ }

/-- The program `import Def, * as NS from "./m";` then `console.log(Def);`:
the default binding `Def` is used, the namespace binding `NS` is not. -/
def fileUsedDefault : SourceFile :=
  [Statement.importDecl mixedDeclM, Statement.other ["console", "log", "Def"]]

/-- C1: with the default binding used and the namespace binding unused, the
analyzer deletes the whole statement — the used binding `Def` is removed.
Line 84's node-identity check accepts the namespace name node, so
`isNamespaceImportUsed` is false and line 86 fires before the default
binding is ever consulted. -/
theorem c1_code_behavior :
    "Def" ∈ allIdentifiers fileUsedDefault ∧
    "Def" ∈ importedSymbolsOf mixedDeclM ∧
    analyzeFile fileUsedDefault = [TextEdit.delete ⟨⟨0, 0⟩, ⟨1, 0⟩⟩] := by
  decide

/-- The clause of `import { Name } from "./m";`: one named specifier. -/
def clauseName : ImportClause :=
  { name := none, isTypeOnly := false,
    namedBindings := some (NamedBindings.namedImports
      [{ name := "Name", text := "Name" }]) }

/-- The statement `import { Name } from "./m";` on line 0 (braces written
as in the source program). -/
def namedDeclName : ImportDeclaration :=
  { importClause := some clauseName,
    moduleSpecifierText := "\"./m\"",
    text := "import \x7b Name \x7d from \"./m\";",
    range := ⟨⟨0, 0⟩, ⟨0, 27⟩⟩ }

/-- The program `import { Name } from "./m";` then `const o = { Name: 1 };`.  The
second statement's identifier nodes are the declared variable `o` and the
plain property key `Name` (a `PropertyAssignment` name is an `Identifier`
node, and the first pass records every identifier node). -/
def filePlainKey : SourceFile :=
  [Statement.importDecl namedDeclName, Statement.other ["o", "Name"]]

/-- C2: the plain object-literal property key `Name` is recorded by the
first pass, so the import counts as used and the analyzer returns no edits
— it does not delete the import line as the claim (and the repository's
own test suite) requires. -/
theorem c2_code_behavior :
    "Name" ∈ allIdentifiers filePlainKey ∧ analyzeFile filePlainKey = [] := by
  decide

/-- The clause of `import type { Used, Unused } from "./t";`: the
statement-level type-only flag and two named specifiers. -/
def clauseUsedUnused : ImportClause :=
  { name := none, isTypeOnly := true,
    namedBindings := some (NamedBindings.namedImports
      [{ name := "Used", text := "Used" }, { name := "Unused", text := "Unused" }]) }

/-- The statement `import type { Used, Unused } from "./t";` on line 0. -/
def typeOnlyDecl : ImportDeclaration :=
  { importClause := some clauseUsedUnused,
    moduleSpecifierText := "\"./t\"",
    text := "import type \x7b Used, Unused \x7d from \"./t\";",
    range := ⟨⟨0, 0⟩, ⟨0, 40⟩⟩ }

/-- The program `import type { Used, Unused } from "./t";` then `let x: Used;` (the
type reference `Used` and the variable `x` are the identifier nodes). -/
def fileTypeOnly : SourceFile :=
  [Statement.importDecl typeOnlyDecl, Statement.other ["x", "Used"]]

/-- C4: the rebuilt statement for the type-only import is
`import { Used } from "./t";` — the statement-level `type` keyword is
dropped, because the rebuild template at line 103 is the literal
`"import "`.  The claim (and the repository's own test on mixed used and
unused type imports) requires `import type { Used } from "./t";`. -/
theorem c4_code_behavior :
    analyzeFile fileTypeOnly =
      [TextEdit.replace ⟨⟨0, 0⟩, ⟨0, 40⟩⟩ "import \x7b Used \x7d from \"./t\";"] ∧
    "import \x7b Used \x7d from \"./t\";" ≠ "import type \x7b Used \x7d from \"./t\";" := by
  decide

/-- The statement `import { a } from "./m";` on line 0. -/
def declA : ImportDeclaration :=
  { importClause := some
      { name := none, isTypeOnly := false,
        namedBindings := some (NamedBindings.namedImports [{ name := "a", text := "a" }]) },
    moduleSpecifierText := "\"./m\"",
    text := "import \x7b a \x7d from \"./m\";",
    range := ⟨⟨0, 0⟩, ⟨0, 24⟩⟩ }

/-- The statement `import { b } from "./n";` at the start of line 1. -/
def declB : ImportDeclaration :=
  { importClause := some
      { name := none, isTypeOnly := false,
        namedBindings := some (NamedBindings.namedImports [{ name := "b", text := "b" }]) },
    moduleSpecifierText := "\"./n\"",
    text := "import \x7b b \x7d from \"./n\";",
    range := ⟨⟨1, 0⟩, ⟨1, 24⟩⟩ }

/-- The three-line program whose line 1 holds two statements:
line 0 `import { a } from "./m";`,
line 1 `import { b } from "./n"; console.log(a);`,
line 2 `console.log("x");`. -/
def fileSharedLine : SourceFile :=
  [Statement.importDecl declA, Statement.importDecl declB,
   Statement.other ["console", "log", "a"], Statement.other ["console", "log"]]

/-- The text of `fileSharedLine`, line by line. -/
def fileSharedLineText : List String :=
  ["import \x7b a \x7d from \"./m\";",
   "import \x7b b \x7d from \"./n\"; console.log(a);",
   "console.log(\"x\");"]

/-- The hand-parse of the text produced by applying `fileSharedLine`'s
edits: line 0 `import { a } from "./m";`, line 1 `console.log("x");`.
The call `console.log(a)` was on the deleted line, so `a` no longer
occurs. -/
def fileAfterFirstRun : SourceFile :=
  [Statement.importDecl declA, Statement.other ["console", "log"]]

/-- C6: idempotence fails.  On `fileSharedLine` the only unused binding is
`b`, and its whole-line deletion range also removes `console.log(a);`,
the only use of `a`.  Analyzing the resulting text again deletes the
statement importing `a`: the second run is not empty. -/
theorem c6_code_behavior :
    analyzeFile fileSharedLine = [TextEdit.delete ⟨⟨1, 0⟩, ⟨2, 0⟩⟩] ∧
    applyEdits fileSharedLineText (analyzeFile fileSharedLine) =
      ["import \x7b a \x7d from \"./m\";", "console.log(\"x\");"] ∧
    analyzeFile fileAfterFirstRun = [TextEdit.delete ⟨⟨0, 0⟩, ⟨1, 0⟩⟩] ∧
    analyzeFile fileAfterFirstRun ≠ [] := by
  decide

/-- The statement `import { x as a } from "./n";` on line 1: the specifier
binds the local name `a` (the alias target) with source text `x as a`. -/
def declAliasA : ImportDeclaration :=
  { importClause := some
      { name := none, isTypeOnly := false,
        namedBindings := some (NamedBindings.namedImports [{ name := "a", text := "x as a" }]) },
    moduleSpecifierText := "\"./n\"",
    text := "import \x7b x as a \x7d from \"./n\";",
    range := ⟨⟨1, 0⟩, ⟨1, 29⟩⟩ }

/-- The program `import { a } from "./m";` then `export { a } from "./x";`.  The
export declaration is not an import declaration, so the first pass visits
it and records the export-specifier name `a` (an `Identifier` node). -/
def fileExportSpecifier : SourceFile :=
  [Statement.importDecl declA, Statement.other ["a"]]

/-- The program `import { a } from "./m";` then `import { x as a } from "./n";`:
the name `a` occurs only inside import declarations. -/
def fileImportSpecifierOnly : SourceFile :=
  [Statement.importDecl declA, Statement.importDecl declAliasA]

/-- C7 counterexample: for `import { a } from "./m";` followed by
`export { a } from "./x";`, the export-specifier occurrence of `a` IS
recorded by the first pass, the binding is classified used, and
`analyzeFile` removes nothing — the claim says it is classified unused and
removed. -/
theorem c7_counterexample :
    "a" ∈ allIdentifiers fileExportSpecifier ∧
    unusedSymbolsOf (allIdentifiers fileExportSpecifier) declA = [] ∧
    analyzeFile fileExportSpecifier = [] := by
  decide

/-- C7 amended: occurrences inside other IMPORT declarations do not count
(import subtrees are skipped, so both imports of `fileImportSpecifierOnly`
are deleted), but identifier nodes inside EXPORT declarations are recorded
as used, so the import of `fileExportSpecifier` is kept. -/
theorem c7_amended :
    analyzeFile fileImportSpecifierOnly =
      [TextEdit.delete ⟨⟨0, 0⟩, ⟨1, 0⟩⟩, TextEdit.delete ⟨⟨1, 0⟩, ⟨2, 0⟩⟩] ∧
    allIdentifiers fileExportSpecifier = ["a"] ∧
    analyzeFile fileExportSpecifier = [] := by
  decide

/-- The statement `import Def, * as NS from "./q";` on line 0. -/
def mixedDeclQ : ImportDeclaration :=
  { importClause := some
      { name := some "Def", isTypeOnly := false,
        namedBindings := some (NamedBindings.namespaceImport "NS") },
    moduleSpecifierText := "\"./q\"",
    text := "import Def, * as NS from \"./q\";",
    range := ⟨⟨0, 0⟩, ⟨0, 31⟩⟩ }

/-- The program `import Def, * as NS from "./q";` then `NS.x;`: the namespace binding
is used (the property access contributes identifiers `NS` and `x`), the
default binding is not. -/
def fileUsedNamespace : SourceFile :=
  [Statement.importDecl mixedDeclQ, Statement.other ["NS", "x"]]

/-- C3 counterexample: in `fileUsedNamespace` the namespace binding `NS`
survives (it is used), yet the emitted edit is a whole-line DeleteRange,
not a ReplaceRange: line 84's node-identity check also accepts the unused
default name node, so line 86 deletes the statement. -/
theorem c3_counterexample :
    "NS" ∈ allIdentifiers fileUsedNamespace ∧
    "NS" ∈ importedSymbolsOf mixedDeclQ ∧
    analyzeFile fileUsedNamespace = [TextEdit.delete ⟨⟨0, 0⟩, ⟨1, 0⟩⟩] := by
  decide

/-- The statement `import { b } from "./n";` at columns 25-49 of line 0,
sharing the line with another import. -/
def declBSameLine : ImportDeclaration :=
  { importClause := some
      { name := none, isTypeOnly := false,
        namedBindings := some (NamedBindings.namedImports [{ name := "b", text := "b" }]) },
    moduleSpecifierText := "\"./n\"",
    text := "import \x7b b \x7d from \"./n\";",
    range := ⟨⟨0, 25⟩, ⟨0, 49⟩⟩ }

/-- Line 0 `import { a } from "./m"; import { b } from "./n";` (two import
statements on one physical line), line 1 `console.log("x");`: both
bindings are unused. -/
def fileTwoImportsOneLine : SourceFile :=
  [Statement.importDecl declA, Statement.importDecl declBSameLine,
   Statement.other ["console", "log"]]

/-- C5 counterexample: both statements of `fileTwoImportsOneLine` are
fully unused, and each contributes a whole-line DeleteRange for the same
physical line 0 — the two returned ranges overlap. -/
theorem c5_counterexample :
    analyzeFile fileTwoImportsOneLine =
      [TextEdit.delete ⟨⟨0, 0⟩, ⟨1, 0⟩⟩, TextEdit.delete ⟨⟨0, 0⟩, ⟨1, 0⟩⟩] ∧
    rangesOverlap ⟨⟨0, 0⟩, ⟨1, 0⟩⟩ ⟨⟨0, 0⟩, ⟨1, 0⟩⟩ := by
  decide

/-- The statement `import { u } from "./m";` on line 0, columns 0-24. -/
def declU : ImportDeclaration :=
  { importClause := some
      { name := none, isTypeOnly := false,
        namedBindings := some (NamedBindings.namedImports [{ name := "u", text := "u" }]) },
    moduleSpecifierText := "\"./m\"",
    text := "import \x7b u \x7d from \"./m\";",
    range := ⟨⟨0, 0⟩, ⟨0, 24⟩⟩ }

/-- The single line `import { u } from "./m"; export { b } from "./x";`:
an unused import and a re-export statement share line 0; the re-export
occupies columns 25-49 and contributes the identifier `b`. -/
def fileImportThenExport : SourceFile :=
  [Statement.importDecl declU, Statement.other ["b"]]

/-- The text of `fileImportThenExport`: one line. -/
def fileImportThenExportText : List String :=
  ["import \x7b u \x7d from \"./m\"; export \x7b b \x7d from \"./x\";"]

/-- C9 counterexample: the unused import `u` triggers a whole-line
DeleteRange whose range contains the re-export statement's span
(columns 25-49 of line 0); applying the returned edits erases the
re-export's text, so an edit does delete part (all) of a re-export
statement. -/
theorem c9_counterexample :
    analyzeFile fileImportThenExport = [TextEdit.delete ⟨⟨0, 0⟩, ⟨1, 0⟩⟩] ∧
    rangeContains ⟨⟨0, 0⟩, ⟨1, 0⟩⟩ ⟨⟨0, 25⟩, ⟨0, 49⟩⟩ ∧
    applyEdits fileImportThenExportText (analyzeFile fileImportThenExport) = [""] := by
  decide

/-- The statement `import D, * as M from "./k";` on line 0. -/
def mixedDeclK : ImportDeclaration :=
  { importClause := some
      { name := some "D", isTypeOnly := false,
        namedBindings := some (NamedBindings.namespaceImport "M") },
    moduleSpecifierText := "\"./k\"",
    text := "import D, * as M from \"./k\";",
    range := ⟨⟨0, 0⟩, ⟨0, 28⟩⟩ }

/-- The program `import D, * as M from "./k";` then `D();`: the default binding `D`
occurs as an identifier node outside import declarations. -/
def fileUsedD : SourceFile :=
  [Statement.importDecl mixedDeclK, Statement.other ["D"]]

/-- C10 counterexample: `D` occurs outside import declarations as an
identifier node, yet `analyzeFile` emits an edit that removes `D`'s
binding — the whole statement is deleted because the namespace binding
`M` is unused. -/
theorem c10_counterexample :
    "D" ∈ allIdentifiers fileUsedD ∧
    "D" ∈ importedSymbolsOf mixedDeclK ∧
    analyzeFile fileUsedD = [TextEdit.delete ⟨⟨0, 0⟩, ⟨1, 0⟩⟩] := by
  decide

/-- The boolean `List.contains` agrees with membership (YES direction). -/
theorem containsIffMem (l : List String) (a : String) : l.contains a = true ↔ a ∈ l := by
  simp [List.contains]

/-- The boolean `List.contains` agrees with membership (NO direction). -/
theorem containsFalseIffNotMem (l : List String) (a : String) :
    l.contains a = false ↔ a ∉ l := by
  simp [List.contains]

/-- The bound names of a declaration that survive: those found in the
identifier set (the spec's `kept` list). -/
def keptSymbolsOf (used : List String) (d : ImportDeclaration) : List String :=
  (importedSymbolsOf d).filter (fun n => used.contains n)

/-- When neither deletion branch fires, the pushed edit is the line-117
comparison's outcome: nothing, or a replacement over the statement's exact
range. -/
theorem declEdit_else_shape (used : List String) (d : ImportDeclaration)
    (h1 : (isNamespaceImport d && !isNamespaceImportUsed used d) = false)
    (h2 : ((defaultImportName used d).isNone &&
      ((usedSpecifiers used d).getD []).isEmpty) = false) :
    declEdit used d = none ∨ ∃ t, declEdit used d = some (TextEdit.replace d.range t) := by
  unfold declEdit
  simp only [h1, h2, Bool.false_eq_true, if_false]
  split
  · exact Or.inl rfl
  · exact Or.inr ⟨_, rfl⟩

/-- When neither deletion branch fires, the pushed edit is never a
deletion. -/
theorem declEdit_else_ne_delete (used : List String) (d : ImportDeclaration)
    (h1 : (isNamespaceImport d && !isNamespaceImportUsed used d) = false)
    (h2 : ((defaultImportName used d).isNone &&
      ((usedSpecifiers used d).getD []).isEmpty) = false) (r : VRange) :
    declEdit used d ≠ some (TextEdit.delete r) := by
  rcases declEdit_else_shape used d h1 h2 with hc | ⟨t, hc⟩ <;> simp [hc]

/-- C3 (amended): for a statement with at least one unused bound name,
if the statement has no namespace binding then the emitted edit is the
whole-line DeleteRange exactly when the kept list is empty, and when a
binding survives the emitted edit (if any) is a ReplaceRange over the
statement's exact span; but a statement WITH a namespace binding is always
wholly deleted — even when its other binding survives — because line 84's
node-identity check also matches the default name node. -/
theorem c3_amended (used : List String) (d : ImportDeclaration)
    (h : unusedSymbolsOf used d ≠ []) :
    (isNamespaceImport d = true →
      declEdit used d = some (TextEdit.delete (wholeLineRange d))) ∧
    (isNamespaceImport d = false →
      ((declEdit used d = some (TextEdit.delete (wholeLineRange d))) ↔
        keptSymbolsOf used d = []) ∧
      (keptSymbolsOf used d ≠ [] →
        declEdit used d = none ∨
          ∃ t, declEdit used d = some (TextEdit.replace d.range t))) := by
  cases hdc : d.importClause with
  | none =>
    exfalso
    apply h
    simp [unusedSymbolsOf, importedSymbolsOf, defaultName, namedImportElements,
      namespaceName, hdc]
  | some c =>
    cases hnb : c.namedBindings with
    | none =>
      have hns : isNamespaceImport d = false := by
        simp [isNamespaceImport, namespaceName, hdc, hnb]
      cases hn : c.name with
      | none =>
        exfalso
        apply h
        simp [unusedSymbolsOf, importedSymbolsOf, defaultName, namedImportElements,
          namespaceName, hdc, hnb, hn]
      | some dn =>
        have hdn : used.contains dn = false := by
          by_contra hcon
          apply h
          simp only [Bool.not_eq_false] at hcon
          simp [unusedSymbolsOf, importedSymbolsOf, defaultName, namedImportElements,
            namespaceName, hdc, hnb, hn, hcon]
          exact (containsIffMem used dn).mp hcon
        have hnotmem : dn ∉ used := (containsFalseIffNotMem used dn).mp hdn
        refine ⟨by simp [hns], fun _ => ⟨?_, ?_⟩⟩
        · have hdel : declEdit used d = some (TextEdit.delete (wholeLineRange d)) := by
            simp [declEdit, hns, isNamespaceImportUsed, isNamespaceImport,
              namespaceName, hdc, hnb, defaultImportName, isDefaultImportUnused,
              defaultName, hn, hdn, usedSpecifiers, namedImportElements, hnotmem]
          have hkept : keptSymbolsOf used d = [] := by
            simp [keptSymbolsOf, importedSymbolsOf, defaultName, namedImportElements,
              namespaceName, hdc, hnb, hn, hdn, hnotmem]
          simp [hdel, hkept]
        · intro hk
          exfalso
          apply hk
          simp [keptSymbolsOf, importedSymbolsOf, defaultName, namedImportElements,
            namespaceName, hdc, hnb, hn, hdn, hnotmem]
    | some nb =>
      cases nb with
      | namespaceImport n =>
        have hns : isNamespaceImport d = true := by
          simp [isNamespaceImport, namespaceName, hdc, hnb]
        refine ⟨fun _ => ?_, fun hcon => by simp [hns] at hcon⟩
        have hcheck : unusedNamespaceCheck used d = true := by
          cases hn : c.name with
          | none =>
            have hnn : used.contains n = false := by
              by_contra hcon
              apply h
              simp only [Bool.not_eq_false] at hcon
              simp [unusedSymbolsOf, importedSymbolsOf, defaultName,
                namedImportElements, namespaceName, hdc, hnb, hn]
              exact (containsIffMem used n).mp hcon
            simp [unusedNamespaceCheck, isDefaultImportUnused, defaultName,
              namespaceName, hdc, hnb, hn, hnn]
            exact (containsFalseIffNotMem used n).mp hnn
          | some dn =>
            by_cases hdn : used.contains dn = true
            · have hnn : used.contains n = false := by
                by_contra hcon
                apply h
                simp only [Bool.not_eq_false] at hcon
                simp [unusedSymbolsOf, importedSymbolsOf, defaultName,
                  namedImportElements, namespaceName, hdc, hnb, hn]
                exact ⟨(containsIffMem used dn).mp hdn, (containsIffMem used n).mp hcon⟩
              simp [unusedNamespaceCheck, isDefaultImportUnused, defaultName,
                namespaceName, hdc, hnb, hn, hdn, hnn]
              exact Or.inr ((containsFalseIffNotMem used n).mp hnn)
            · simp only [Bool.not_eq_true] at hdn
              simp [unusedNamespaceCheck, isDefaultImportUnused, defaultName,
                namespaceName, hdc, hnb, hn, hdn]
              exact Or.inl ((containsFalseIffNotMem used dn).mp hdn)
        simp [declEdit, hns, isNamespaceImportUsed, hcheck]
      | namedImports els =>
        have hns : isNamespaceImport d = false := by
          simp [isNamespaceImport, namespaceName, hdc, hnb]
        have hns1 : (isNamespaceImport d && !isNamespaceImportUsed used d) = false := by
          simp [hns]
        have hus : usedSpecifiers used d =
            some (els.filter fun e => used.contains e.name) := by
          simp [usedSpecifiers, namedImportElements, hdc, hnb]
        refine ⟨fun hcon => by simp [hns] at hcon, fun _ => ?_⟩
        cases hn : c.name with
        | none =>
          have hdi : defaultImportName used d = none := by
            simp [defaultImportName, isDefaultImportUnused, defaultName, hdc, hn]
          by_cases hB : (els.filter fun e => used.contains e.name) = []
          · have hBmem : ∀ x ∈ els, x.name ∉ used := fun x hx hmem =>
              (List.filter_eq_nil_iff.mp hB x hx) ((containsIffMem used x.name).mpr hmem)
            have hdel : declEdit used d = some (TextEdit.delete (wholeLineRange d)) := by
              unfold declEdit
              simp [hns1, hdi, hus, hB]
              exact hBmem
            have hkept : keptSymbolsOf used d = [] := by
              rw [keptSymbolsOf, List.filter_eq_nil_iff]
              intro a ha
              simp [importedSymbolsOf, defaultName, namedImportElements,
                namespaceName, hdc, hnb, hn] at ha
              obtain ⟨e, he, rfl⟩ := ha
              intro hc
              exact hBmem e he ((containsIffMem used e.name).mp hc)
            simp [hdel, hkept]
          · obtain ⟨e, he, hqmem⟩ : ∃ x ∈ els, x.name ∈ used := by
              by_contra hcon
              push_neg at hcon
              exact hB (List.filter_eq_nil_iff.mpr
                (fun x hx hc => hcon x hx ((containsIffMem used x.name).mp hc)))
            have h2 : ((defaultImportName used d).isNone &&
                ((usedSpecifiers used d).getD []).isEmpty) = false := by
              simp [hdi, hus, List.isEmpty_iff, hB]
              exact ⟨e, he, hqmem⟩
            have hkne : keptSymbolsOf used d ≠ [] := by
              apply List.ne_nil_of_mem (a := e.name)
              rw [keptSymbolsOf]
              refine List.mem_filter.mpr ⟨?_, (containsIffMem used e.name).mpr hqmem⟩
              simp [importedSymbolsOf, defaultName, namedImportElements,
                namespaceName, hdc, hnb, hn]
              exact ⟨e, he, rfl⟩
            exact ⟨⟨fun hdel => absurd hdel (declEdit_else_ne_delete used d hns1 h2 _),
              fun hk => absurd hk hkne⟩, fun _ => declEdit_else_shape used d hns1 h2⟩
        | some dn =>
          by_cases hdn : used.contains dn = true
          · have hdi : defaultImportName used d = some dn := by
              simp [defaultImportName, isDefaultImportUnused, defaultName, hdc, hn, hdn]
              exact (containsIffMem used dn).mp hdn
            have h2 : ((defaultImportName used d).isNone &&
                ((usedSpecifiers used d).getD []).isEmpty) = false := by
              simp [hdi]
            have hkne : keptSymbolsOf used d ≠ [] := by
              apply List.ne_nil_of_mem (a := dn)
              rw [keptSymbolsOf]
              refine List.mem_filter.mpr ⟨?_, hdn⟩
              simp [importedSymbolsOf, defaultName, namedImportElements,
                namespaceName, hdc, hnb, hn]
            exact ⟨⟨fun hdel => absurd hdel (declEdit_else_ne_delete used d hns1 h2 _),
              fun hk => absurd hk hkne⟩, fun _ => declEdit_else_shape used d hns1 h2⟩
          · simp only [Bool.not_eq_true] at hdn
            have hdnmem : dn ∉ used := (containsFalseIffNotMem used dn).mp hdn
            have hdi : defaultImportName used d = none := by
              simp [defaultImportName, isDefaultImportUnused, defaultName, hdc, hn, hdn]
              exact hdnmem
            by_cases hB : (els.filter fun e => used.contains e.name) = []
            · have hBmem : ∀ x ∈ els, x.name ∉ used := fun x hx hmem =>
                (List.filter_eq_nil_iff.mp hB x hx) ((containsIffMem used x.name).mpr hmem)
              have hdel : declEdit used d = some (TextEdit.delete (wholeLineRange d)) := by
                unfold declEdit
                simp [hns1, hdi, hus, hB]
                exact hBmem
              have hkept : keptSymbolsOf used d = [] := by
                rw [keptSymbolsOf, List.filter_eq_nil_iff]
                intro a ha
                simp [importedSymbolsOf, defaultName, namedImportElements,
                  namespaceName, hdc, hnb, hn] at ha
                rcases ha with rfl | ⟨e, he, rfl⟩
                · intro hc
                  exact hdnmem ((containsIffMem used a).mp hc)
                · intro hc
                  exact hBmem e he ((containsIffMem used e.name).mp hc)
              simp [hdel, hkept]
            · obtain ⟨e, he, hqmem⟩ : ∃ x ∈ els, x.name ∈ used := by
                by_contra hcon
                push_neg at hcon
                exact hB (List.filter_eq_nil_iff.mpr
                  (fun x hx hc => hcon x hx ((containsIffMem used x.name).mp hc)))
              have h2 : ((defaultImportName used d).isNone &&
                  ((usedSpecifiers used d).getD []).isEmpty) = false := by
                simp [hdi, hus, List.isEmpty_iff, hB]
                exact ⟨e, he, hqmem⟩
              have hkne : keptSymbolsOf used d ≠ [] := by
                apply List.ne_nil_of_mem (a := e.name)
                rw [keptSymbolsOf]
                refine List.mem_filter.mpr ⟨?_, (containsIffMem used e.name).mpr hqmem⟩
                simp [importedSymbolsOf, defaultName, namedImportElements,
                  namespaceName, hdc, hnb, hn]
                exact Or.inr ⟨e, he, rfl⟩
              exact ⟨⟨fun hdel => absurd hdel (declEdit_else_ne_delete used d hns1 h2 _),
                fun hk => absurd hk hkne⟩, fun _ => declEdit_else_shape used d hns1 h2⟩

/-- The clause of `import { a, b } from "./w";` for the C3 witness. -/
def clauseABw : ImportClause :=
  { name := none, isTypeOnly := false,
    namedBindings := some (NamedBindings.namedImports
      [{ name := "a", text := "a" }, { name := "b", text := "b" }]) }

/-- The statement `import { a, b } from "./w";` on line 0. -/
def declABw : ImportDeclaration :=
  { importClause := some clauseABw,
    moduleSpecifierText := "\"./w\"",
    text := "import \x7b a, b \x7d from \"./w\";",
    range := ⟨⟨0, 0⟩, ⟨0, 27⟩⟩ }

/-- C3 witness: the amended theorem applied to `import { a, b } from
"./w";` with only `b` used — the statement has no namespace binding, its
kept list is `[b] ≠ []`, and the edit is a ReplaceRange. -/
theorem c3_amended_witness :
    unusedSymbolsOf ["b"] declABw ≠ [] ∧
    ((isNamespaceImport declABw = true →
      declEdit ["b"] declABw = some (TextEdit.delete (wholeLineRange declABw))) ∧
    (isNamespaceImport declABw = false →
      ((declEdit ["b"] declABw = some (TextEdit.delete (wholeLineRange declABw))) ↔
        keptSymbolsOf ["b"] declABw = []) ∧
      (keptSymbolsOf ["b"] declABw ≠ [] →
        declEdit ["b"] declABw = none ∨
          ∃ t, declEdit ["b"] declABw = some (TextEdit.replace declABw.range t)))) :=
  ⟨by decide, c3_amended ["b"] declABw (by decide)⟩
def stmtSep : Statement → Statement → Bool
  | Statement.importDecl d1, Statement.importDecl d2 =>
      decide (d1.range.stop.line < d2.range.start.line)
  | _, _ => true

/-- Any edit pushed for a declaration stays within the declaration's
line block: it starts no earlier than column 0 of the statement's first
line and stops no later than the start of the line after its last line. -/
theorem declEdit_range_bounds (used : List String) (d : ImportDeclaration)
    (e : TextEdit) (he : declEdit used d = some e) :
    posLe ⟨d.range.start.line, 0⟩ (editRange e).start ∧
    posLe (editRange e).stop ⟨d.range.stop.line + 1, 0⟩ := by
  unfold declEdit at he
  split at he
  · cases he
    exact ⟨Or.inr ⟨rfl, Nat.le_refl 0⟩, Or.inr ⟨rfl, Nat.le_refl 0⟩⟩
  · split at he
    · cases he
      exact ⟨Or.inr ⟨rfl, Nat.le_refl 0⟩, Or.inr ⟨rfl, Nat.le_refl 0⟩⟩
    · split at he
      · cases he
      · cases he
        exact ⟨Or.inr ⟨rfl, Nat.zero_le _⟩, Or.inl (Nat.lt_succ_self _)⟩

/-- C5 (amended): edits come one per import statement, in file order, and
when every pair of import statements is line-separated (the earlier one's
last line strictly before the later one's first line) the returned edits
are pairwise separated: each edit ends at or before the next begins, so
ranges are in file order and never overlap.  (When two import statements
share a physical line this fails: see the counterexample.) -/
theorem c5_amended (sf : SourceFile)
    (hsep : List.Pairwise (fun s1 s2 => stmtSep s1 s2 = true) sf) :
    List.Pairwise editsSeparated (analyzeFile sf) := by
  unfold analyzeFile
  refine List.Pairwise.filterMap _ ?_ hsep
  intro s1 s2 hsep12 e1 he1 e2 he2
  simp only [Option.mem_def] at he1 he2
  cases s1 with
  | other ids => cases he1
  | importDecl d1 =>
    cases s2 with
    | other ids => cases he2
    | importDecl d2 =>
      have hlt : d1.range.stop.line < d2.range.start.line := by
        simpa [stmtSep] using hsep12
      have hd1 : declEdit (allIdentifiers sf) d1 = some e1 := by
        by_cases hg : (unusedSymbolsOf (allIdentifiers sf) d1).isEmpty = true
        · simp [hg] at he1
        · simpa [hg] using he1
      have hd2 : declEdit (allIdentifiers sf) d2 = some e2 := by
        by_cases hg : (unusedSymbolsOf (allIdentifiers sf) d2).isEmpty = true
        · simp [hg] at he2
        · simpa [hg] using he2
      have hb1 := declEdit_range_bounds _ _ _ hd1
      have hb2 := declEdit_range_bounds _ _ _ hd2
      have hstep : posLe ⟨d1.range.stop.line + 1, 0⟩ ⟨d2.range.start.line, 0⟩ := by
        rcases Nat.lt_or_ge (d1.range.stop.line + 1) d2.range.start.line with hc | hc
        · exact Or.inl hc
        · have : d1.range.stop.line + 1 = d2.range.start.line := Nat.le_antisymm hlt hc
          exact Or.inr ⟨this, Nat.le_refl 0⟩
      -- chain: stop e1 ≤ (stop1+1,0) ≤ (start2,0) ≤ start e2
      unfold editsSeparated
      have t1 : posLe (editRange e1).stop ⟨d2.range.start.line, 0⟩ := by
        rcases hb1.2 with hlt1 | ⟨heq1, hle1⟩
        · rcases hstep with hlt2 | ⟨heq2, _⟩
          · exact Or.inl (Nat.lt_trans hlt1 hlt2)
          · exact Or.inl (heq2 ▸ hlt1)
        · rcases hstep with hlt2 | ⟨heq2, hle2⟩
          · exact Or.inl (heq1 ▸ hlt2)
          · exact Or.inr ⟨heq1.trans heq2, Nat.le_trans hle1 hle2⟩
      rcases t1 with hlt1 | ⟨heq1, hle1⟩
      · rcases hb2.1 with hlt2 | ⟨heq2, _⟩
        · exact Or.inl (Nat.lt_trans hlt1 hlt2)
        · exact Or.inl (heq2 ▸ hlt1)
      · rcases hb2.1 with hlt2 | ⟨heq2, hle2⟩
        · exact Or.inl (heq1 ▸ hlt2)
        · exact Or.inr ⟨heq1.trans heq2, Nat.le_trans hle1 hle2⟩

/-- Line 0 `import { a } from "./m";`, line 1 `import { b } from "./n";`,
line 2 `console.log("x");`: two unused imports on separate lines. -/
def fileSeparatedLines : SourceFile :=
  [Statement.importDecl declA, Statement.importDecl declB,
   Statement.other ["console", "log"]]

/-- C5 witness: on a file whose import statements sit on separate lines,
the two whole-line deletions come in file order and do not overlap. -/
theorem c5_amended_witness :
    List.Pairwise (fun s1 s2 => stmtSep s1 s2 = true) fileSeparatedLines ∧
    List.Pairwise editsSeparated (analyzeFile fileSeparatedLines) :=
  ⟨by decide, c5_amended fileSeparatedLines (by decide)⟩

/-- C9 (amended): every edit the analyzer returns is generated by some
declaration of an import that has an import clause (so neither a re-export
statement, which is an `other` statement, nor a side-effect-only import,
which has no clause, ever generates an edit) and at least one unused bound
name.  (A generated whole-line deletion can still cover a re-export
sharing the statement's physical line: see the counterexample.) -/
theorem c9_amended (sf : SourceFile) (e : TextEdit) (he : e ∈ analyzeFile sf) :
    ∃ d : ImportDeclaration, Statement.importDecl d ∈ sf ∧
      d.importClause.isSome = true ∧
      unusedSymbolsOf (allIdentifiers sf) d ≠ [] ∧
      declEdit (allIdentifiers sf) d = some e := by
  unfold analyzeFile at he
  rw [List.mem_filterMap] at he
  obtain ⟨s, hs, hfs⟩ := he
  cases s with
  | other ids => cases hfs
  | importDecl d =>
    by_cases hg : (unusedSymbolsOf (allIdentifiers sf) d).isEmpty = true
    · simp [hg] at hfs
    · refine ⟨d, hs, ?_, ?_, by simpa [hg] using hfs⟩
      · cases hdc : d.importClause with
        | some c => rfl
        | none =>
          exfalso
          apply hg
          simp [unusedSymbolsOf, importedSymbolsOf, defaultName,
            namedImportElements, namespaceName, hdc]
      · intro hnil
        exact hg (by simp [hnil])

/-- C10 (amended): the usage test records every identifier node outside
the import declarations (a superset of the spec's rules), and a binding whose
local name is in the identifier set is never classified unused; for a
statement WITHOUT a namespace binding no deletion edit is ever emitted, a
used default binding always reappears as `defaultImportName`, and a used
named specifier is never omitted from the surviving-specifier list.  (A
statement combining default and namespace bindings is wholly deleted
whenever either binding is unused — see the counterexample — and a
whole-line deletion of a different statement sharing a physical line can
still remove the used binding.) -/
theorem c10_amended (used : List String) (d : ImportDeclaration) (n : String)
    (hns : isNamespaceImport d = false)
    (hbound : n ∈ importedSymbolsOf d) (hused : n ∈ used) :
    n ∉ unusedSymbolsOf used d ∧
    (∀ r, declEdit used d ≠ some (TextEdit.delete r)) ∧
    (defaultName d = some n → defaultImportName used d = some n) ∧
    (∀ e ∈ (namedImportElements d).getD [], e.name ∈ used →
        e ∈ (usedSpecifiers used d).getD []) := by
  have hcn : used.contains n = true := (containsIffMem used n).mpr hused
  have hnn : namespaceName d = none := by
    cases hnsn : namespaceName d with
    | none => rfl
    | some m => simp [isNamespaceImport, hnsn] at hns
  have hns1 : (isNamespaceImport d && !isNamespaceImportUsed used d) = false := by
    simp [hns]
  refine ⟨?_, ?_, ?_, ?_⟩
  · intro hmem
    have h2 := (List.mem_filter.mp hmem).2
    simp [hcn] at h2
    exact h2 hused
  · -- some used bound name exists, so the kept-empty condition is false
    have h2 : ((defaultImportName used d).isNone &&
        ((usedSpecifiers used d).getD []).isEmpty) = false := by
      simp only [importedSymbolsOf, hnn, List.append_nil] at hbound
      rcases List.mem_append.mp hbound with hdf | hnm
      · cases hdn : defaultName d with
        | none => simp [hdn] at hdf
        | some dn =>
          rw [hdn] at hdf
          have hnd : n = dn := by simpa using hdf
          subst hnd
          have : defaultImportName used d = some n := by
            simp [defaultImportName, isDefaultImportUnused, hdn, hcn]
            exact hused
          simp [this]
      · cases hne : namedImportElements d with
        | none => simp [hne] at hnm
        | some els =>
          rw [hne] at hnm
          obtain ⟨e, he, hename⟩ := List.mem_map.mp hnm
          have hef : e ∈ els.filter (fun e2 => used.contains e2.name) :=
            List.mem_filter.mpr ⟨he, by rw [hename]; exact hcn⟩
          have hne2 : ((usedSpecifiers used d).getD []).isEmpty = false := by
            simp [usedSpecifiers, hne, List.isEmpty_iff]
            exact ⟨e, he, by rw [hename]; exact hused⟩
          simp [hne2]
    exact declEdit_else_ne_delete used d hns1 h2
  · intro hdn
    simp [defaultImportName, isDefaultImportUnused, hdn, hcn]
    exact hused
  · intro e he hm
    cases hne : namedImportElements d with
    | none => simp [hne] at he
    | some els =>
      rw [hne] at he
      simp only [Option.getD_some] at he
      simp [usedSpecifiers, hne]
      exact ⟨he, hm⟩

/-- The statement `import { q } from "./w";` on line 0, unused below. -/
def declW9 : ImportDeclaration :=
  { importClause := some
      { name := none, isTypeOnly := false,
        namedBindings := some (NamedBindings.namedImports [{ name := "q", text := "q" }]) },
    moduleSpecifierText := "\"./w\"",
    text := "import \x7b q \x7d from \"./w\";",
    range := ⟨⟨0, 0⟩, ⟨0, 24⟩⟩ }

/-- A file holding only the unused import of `q`. -/
def fileW9 : SourceFile := [Statement.importDecl declW9]

/-- C9 witness: the single returned edit of `fileW9` is traced back to
its import declaration, which has a clause and an unused bound name. -/
theorem c9_amended_witness :
    TextEdit.delete ⟨⟨0, 0⟩, ⟨1, 0⟩⟩ ∈ analyzeFile fileW9 ∧
    (∃ d : ImportDeclaration, Statement.importDecl d ∈ fileW9 ∧
      d.importClause.isSome = true ∧
      unusedSymbolsOf (allIdentifiers fileW9) d ≠ [] ∧
      declEdit (allIdentifiers fileW9) d =
        some (TextEdit.delete ⟨⟨0, 0⟩, ⟨1, 0⟩⟩)) :=
  ⟨by decide, c9_amended fileW9 _ (by decide)⟩

/-- The clause of `import G, { g } from "./w";`. -/
def clauseGg : ImportClause :=
  { name := some "G", isTypeOnly := false,
    namedBindings := some (NamedBindings.namedImports [{ name := "g", text := "g" }]) }

/-- The statement `import G, { g } from "./w";` on line 0. -/
def declW10 : ImportDeclaration :=
  { importClause := some clauseGg,
    moduleSpecifierText := "\"./w\"",
    text := "import G, \x7b g \x7d from \"./w\";",
    range := ⟨⟨0, 0⟩, ⟨0, 29⟩⟩ }

/-- C10 witness: with both `G` and `g` used, the used default binding `G`
is never classified unused, its statement gets no deletion edit, and the
used specifier `g` survives in the specifier list. -/
theorem c10_amended_witness :
    (isNamespaceImport declW10 = false ∧ "G" ∈ importedSymbolsOf declW10 ∧
      "G" ∈ ["G", "g"]) ∧
    ("G" ∉ unusedSymbolsOf ["G", "g"] declW10 ∧
     (∀ r, declEdit ["G", "g"] declW10 ≠ some (TextEdit.delete r)) ∧
     (defaultName declW10 = some "G" →
        defaultImportName ["G", "g"] declW10 = some "G") ∧
     (∀ e ∈ (namedImportElements declW10).getD [], e.name ∈ ["G", "g"] →
        e ∈ (usedSpecifiers ["G", "g"] declW10).getD [])) :=
  ⟨⟨by decide, by decide, by decide⟩,
   c10_amended ["G", "g"] declW10 "G" (by decide) (by decide) (by decide)⟩
